import Mathlib

/-!
Shallow embedding of the incremental sentiment-aggregation pipeline
(`extract_data.py`, `transform_data.py`, `model_utilies.py`, `load_data.py`,
`alert_system.py`, `sentiment_review_pipeline_dag.py`).

Conventions of the embedding:
* pandas NaN cells are `Option.none`; `clean_and_convert_to_numeric` is modelled
  by giving the `Price`/`Stars` columns type `Option ℚ` up front (`some q` for a
  cell that parses to the number `q`, `none` for a cell that coerces to NaN).
* SQL tables are Lean lists of row structures; an upsert keyed on a column is a
  `find?`/`map`/append on that list.
* the MySQL transaction of `load_batch_to_db` is modelled as a pure function on
  the database state: the function's value is the state after a successful
  commit, and a failed transaction leaves the state argument unchanged.
* the SMTP transport of `alert_system.py` is an oracle `deliver : ℕ → Bool`;
  an exception inside the sending loop aborts the remaining sends, which is
  exactly how `check_and_send_alerts` catches errors outside its `for` loop.
-/

/-- Delivery status stored in the notification tables: `no` models the SQL
value `'no'` (pending), `yes` models `'yes'` (sent). -/
inductive SendStatus where
  | no
  | yes
deriving DecidableEq, Repr

/-- One row of a predicted batch as consumed by `load_batch_to_db`:
columns `ASIN`, `Title`, `Price`, `Stars`, `Review`, `predicted_sentiment`. -/
structure ReviewRecord where
  asin : String
  title : String
  price : Option ℚ
  stars : Option ℚ
  review : Option String
  predicted_sentiment : String
deriving DecidableEq, Repr

/-- The per-group result of the pandas `groupby(["ASIN", "Title"]).agg(...)`
in `load_batch_to_db`. -/
structure BatchSummary where
  avg_price : ℚ
  avg_rates : ℚ
  total_reviews : ℕ
  num_positive : ℕ
  num_negative : ℕ
  num_neutral : ℕ
deriving DecidableEq, Repr

/-- Aggregation of one `(ASIN, Title)` group, following the `agg` spec of
`load_batch_to_db`: means of `Price`/`Stars` over the group, `count` of
non-null `Review`, and counts of the three Arabic sentiment literals. -/
def groupAgg (rows : List ReviewRecord) : BatchSummary :=
  { avg_price := ((rows.map fun r => r.price.getD 0).sum) / (rows.length : ℚ)
    avg_rates := ((rows.map fun r => r.stars.getD 0).sum) / (rows.length : ℚ)
    total_reviews := (rows.filter fun r => r.review.isSome).length
    num_positive := (rows.filter fun r => r.predicted_sentiment = "إيجابي").length
    num_negative := (rows.filter fun r => r.predicted_sentiment = "سلبي").length
    num_neutral := (rows.filter fun r => r.predicted_sentiment = "محايد").length }

/-- A row of the `product` table, columns as in the upsert statement of
`load_batch_to_db`. -/
structure ProductRow where
  product_id : String
  product_name : String
  AVG_price : ℚ
  AVG_rates : ℚ
  num_pos_reviews : ℕ
  num_nat_reviews : ℕ
  num_neg_reviews : ℕ
  total_reviews : ℕ
deriving DecidableEq, Repr

/-- The `ON DUPLICATE KEY UPDATE` arm of the product upsert: counters are
added, the running means are combined by the parallel-mean formula weighted
with `total_reviews`. -/
def mergeProduct (S : ProductRow) (name : String) (B : BatchSummary) : ProductRow :=
  { product_id := S.product_id
    product_name := name
    AVG_price := (S.AVG_price * (S.total_reviews : ℚ) + B.avg_price * (B.total_reviews : ℚ)) /
      ((S.total_reviews : ℚ) + (B.total_reviews : ℚ))
    AVG_rates := (S.AVG_rates * (S.total_reviews : ℚ) + B.avg_rates * (B.total_reviews : ℚ)) /
      ((S.total_reviews : ℚ) + (B.total_reviews : ℚ))
    num_pos_reviews := S.num_pos_reviews + B.num_positive
    num_nat_reviews := S.num_nat_reviews + B.num_neutral
    num_neg_reviews := S.num_neg_reviews + B.num_negative
    total_reviews := S.total_reviews + B.total_reviews }

/-- The `INSERT` arm of the product upsert (no existing row for the key). -/
def insertProduct (id name : String) (B : BatchSummary) : ProductRow :=
  ⟨id, name, B.avg_price, B.avg_rates, B.num_positive, B.num_neutral,
    B.num_negative, B.total_reviews⟩

/-- The full `INSERT ... ON DUPLICATE KEY UPDATE` on the `product` table,
keyed by `product_id`. -/
def upsertProduct (table : List ProductRow) (id name : String) (B : BatchSummary) :
    List ProductRow :=
  match table.find? (fun r => r.product_id = id) with
  | some _ => table.map fun r => if r.product_id = id then mergeProduct r name B else r
  | none => table ++ [insertProduct id name B]

/-- A row of the product-path `notification` table written by
`load_batch_to_db`. -/
structure NotificationRow where
  product_id : String
  message : String
  num_negative : ℕ
  threshold : ℕ
  send_status : SendStatus
deriving DecidableEq, Repr

/-- The alert message composed in `load_batch_to_db`. -/
def notifMessage (name id : String) (n : ℕ) : String :=
  "Product '" ++ name ++ "' (ID: " ++ id ++ ") has received " ++ toString n ++
    " negative review(s)."

/-- The `INSERT ... ON DUPLICATE KEY UPDATE` on the `notification` table,
keyed by `product_id`: both arms store the fresh message, count and threshold,
and both arms leave `send_status = 'no'` (the insert by column default, the
update explicitly). -/
def upsertNotificationRow (table : List NotificationRow) (id msg : String) (n thr : ℕ) :
    List NotificationRow :=
  match table.find? (fun r => r.product_id = id) with
  | some _ => table.map fun r =>
      if r.product_id = id then ⟨id, msg, n, thr, SendStatus.no⟩ else r
  | none => table ++ [⟨id, msg, n, thr, SendStatus.no⟩]

/-- A row of the `district_stats` table (the columns read by the join in
`check_and_send_alerts`). -/
structure DistrictStatsRow where
  district_id : ℕ
  district : String
  governorate : String
deriving DecidableEq, Repr

/-- A row of the district-path `notifications` table read by
`check_and_send_alerts`. -/
structure DistrictNotificationRow where
  district_id : ℕ
  alert_message : String
  num_neg_reviews : ℕ
  threshold : ℕ
  send_status : SendStatus
deriving DecidableEq, Repr

/-- One result row of the pending-alert select of `check_and_send_alerts`
(`notifications` joined with `district_stats`). -/
structure PendingAlert where
  district_id : ℕ
  alert_message : String
  num_neg_reviews : ℕ
  threshold : ℕ
  district : String
  governorate : String
deriving DecidableEq, Repr

/-- The persisted database state: the `product`, `reviews` and `notification`
tables written by `load_batch_to_db`, and the `district_stats` and
`notifications` tables read by `check_and_send_alerts`. -/
structure DB where
  product : List ProductRow
  reviews : List (String × String × String)
  notification : List NotificationRow
  district_stats : List DistrictStatsRow
  notifications : List DistrictNotificationRow
deriving DecidableEq, Repr

/-- A database with every table empty. -/
def emptyDB : DB := ⟨[], [], [], [], []⟩

/-- The distinct `(ASIN, Title)` group keys of a cleaned batch, in order of
first appearance. -/
def groupKeys (cleaned : List ReviewRecord) : List (String × String) :=
  (cleaned.map fun r => (r.asin, r.title)).dedup

/-- The rows of a cleaned batch belonging to one `(ASIN, Title)` group. -/
def groupRows (cleaned : List ReviewRecord) (k : String × String) : List ReviewRecord :=
  cleaned.filter fun r => r.asin = k.1 ∧ r.title = k.2

/-- The `Price`/`Stars` dropna of `load_batch_to_db`: keep only rows whose
two numeric columns both parsed. -/
def cleanNumericRows (df_batch : List ReviewRecord) : List ReviewRecord :=
  df_batch.filter fun r => r.price.isSome ∧ r.stars.isSome

/-- The body of the `load_batch_to_db` transaction on an already cleaned,
non-empty batch: the product table is upserted per `(ASIN, Title)` group;
cleaned rows with a non-null `Review` are inserted into `reviews`; finally
every product of the batch whose stored `num_neg_reviews` is positive is
upserted into the `notification` table carrying the current configured
threshold. -/
def loadCleanedBatch (cleaned : List ReviewRecord) (db : DB) (threshold : ℕ) : DB :=
  let product1 := (groupKeys cleaned).foldl
    (fun t k => upsertProduct t k.1 k.2 (groupAgg (groupRows cleaned k))) db.product
  let reviews1 := db.reviews ++
    (cleaned.filter fun r => r.review.isSome).map fun r =>
      (r.review.getD "", r.asin, r.predicted_sentiment)
  let asins := (cleaned.map fun r => r.asin).dedup
  let toNotify := product1.filter fun p => p.product_id ∈ asins ∧ 0 < p.num_neg_reviews
  let notif1 := toNotify.foldl
    (fun t p => upsertNotificationRow t p.product_id
      (notifMessage p.product_name p.product_id p.num_neg_reviews)
      p.num_neg_reviews threshold)
    db.notification
  { db with product := product1, reviews := reviews1, notification := notif1 }

/-- Embedding of `load_batch_to_db` (the state after a committed transaction):
an empty batch is skipped, rows with NaN `Price` or `Stars` are dropped and a
batch that is empty after this cleaning is skipped, otherwise the transaction
body `loadCleanedBatch` runs. -/
def load_batch_to_db (df_batch : List ReviewRecord) (db : DB) (threshold : ℕ) : DB :=
  if df_batch = [] then db
  else if cleanNumericRows df_batch = [] then db
  else loadCleanedBatch (cleanNumericRows df_batch) db threshold

/-- The pending-alert select of `check_and_send_alerts`: rows of
`notifications` with `send_status = 'no'`, inner-joined with `district_stats`
on `district_id`. -/
def pendingAlertsOf (ns : List DistrictNotificationRow) (ds : List DistrictStatsRow) :
    List PendingAlert :=
  (ns.filter fun n => n.send_status = SendStatus.no).filterMap fun n =>
    (ds.find? fun d => d.district_id = n.district_id).map fun d =>
      ⟨n.district_id, n.alert_message, n.num_neg_reviews, n.threshold,
        d.district, d.governorate⟩

/-- All pending alerts of the current database state. -/
def findPendingAlerts (db : DB) : List PendingAlert :=
  pendingAlertsOf db.notifications db.district_stats

/-- The python filter `alerts_to_send`: pending alerts whose stored negative
count has reached the threshold stored in the same row. -/
def alertsToSend (db : DB) : List PendingAlert :=
  (findPendingAlerts db).filter fun a => a.threshold ≤ a.num_neg_reviews

/-- The sending loop of `check_and_send_alerts`: attempts the qualifying
alerts in order, collecting the district ids the transport confirms; the
first transport failure raises and aborts the remaining sends. -/
def sendLoop (deliver : ℕ → Bool) : List PendingAlert → List ℕ
  | [] => []
  | a :: rest =>
      if deliver a.district_id then a.district_id :: sendLoop deliver rest else []

/-- Embedding of `check_and_send_alerts`: early return when there is no
pending alert, none qualifies, or nothing was sent; otherwise the rows of the
confirmed district ids are marked `'yes'`. -/
def check_and_send_alerts (db : DB) (deliver : ℕ → Bool) : DB :=
  if findPendingAlerts db = [] then db
  else if alertsToSend db = [] then db
  else if sendLoop deliver (alertsToSend db) = [] then db
  else { db with notifications := db.notifications.map fun n =>
           if n.district_id ∈ sendLoop deliver (alertsToSend db) then
             { n with send_status := SendStatus.yes }
           else n }

/-- Character class kept by the regex `[^ء-ي\s]` removal in
`clean_arabic_text`: the Arabic letters U+0621 to U+064A. -/
def isArabicChar (c : Char) : Bool :=
  0x621 ≤ c.toNat && c.toNat ≤ 0x64A

/-- Maximal runs of non-whitespace characters (used to model the regex
whitespace normalization `\s+` to a single space plus `strip`). -/
def splitWordsAux : List Char → List Char → List (List Char)
  | acc, [] => if acc = [] then [] else [acc.reverse]
  | acc, c :: cs =>
      if c.isWhitespace then
        if acc = [] then splitWordsAux [] cs else acc.reverse :: splitWordsAux [] cs
      else splitWordsAux (c :: acc) cs

/-- Embedding of `clean_arabic_text`: drop every character that is neither an
Arabic letter nor whitespace, collapse whitespace runs to single spaces, strip,
and return NaN (`none`) when nothing remains. -/
def clean_arabic_text (s : String) : Option String :=
  let kept := s.data.filter fun c => isArabicChar c || c.isWhitespace
  let w := splitWordsAux [] kept
  if w = [] then none else some (String.intercalate " " (w.map List.asString))

/-- One row of the extracted batch before text cleaning, with the columns the
downstream stages use. -/
structure SourceRow where
  asin : String
  title : String
  price : Option ℚ
  stars : Option ℚ
  review : Option String
deriving DecidableEq, Repr

/-- Embedding of `preprocess_text_batch`: `None` for an empty input, clean the
review column, drop rows whose cleaned review is NaN, and `None` again when no
row survives; a surviving row is the source row paired with its cleaned text. -/
def preprocess_text_batch (df : List SourceRow) : Option (List (SourceRow × String)) :=
  if df = [] then none
  else
    let df_clean := df.filterMap fun r => (r.review.bind clean_arabic_text).map fun c => (r, c)
    if df_clean = [] then none else some df_clean

/-- The label dictionary of `predict_sentiment_batch`
(`{2: "Positive", 1: "Neutral", 0: "Negative"}`, default `"unknown"`). -/
def arabic_id2label (p : ℕ) : String :=
  if p = 2 then "Positive" else if p = 1 then "Neutral" else if p = 0 then "Negative"
  else "unknown"

/-- Embedding of `predict_sentiment_batch`: `None` for an empty input,
otherwise each row gets a `predicted_sentiment` column holding
`arabic_id2label` of the classifier's output on its cleaned text. -/
def predict_sentiment_batch (classify : String → ℕ) (df : List (SourceRow × String)) :
    Option (List ReviewRecord) :=
  if df = [] then none
  else some (df.map fun rc =>
    ⟨rc.1.asin, rc.1.title, rc.1.price, rc.1.stars, rc.1.review,
      arabic_id2label (classify rc.2)⟩)

/-- Embedding of `extract_batch` over a source of `numRows` data rows
(the header row is never counted): `batch_number < 1` is rejected; the read
skips `(batch_number - 1) * batch_size` data rows and takes up to `batch_size`
of the remaining 1-based row numbers; an empty read returns `None`. -/
def extractRows (numRows batch_number batch_size : ℕ) : List ℕ :=
  List.range' ((batch_number - 1) * batch_size + 1)
    (min batch_size (numRows - (batch_number - 1) * batch_size))

/-- The read itself: rejects `batch_number < 1`, reports `None` when the
addressed slice is empty, and otherwise yields the slice. -/
def extract_batch (numRows batch_number batch_size : ℕ) : Option (List ℕ) :=
  if batch_number < 1 then none
  else if extractRows numRows batch_number batch_size = [] then none
  else some (extractRows numRows batch_number batch_size)

/-- The persistent state a DAG run touches: the Airflow variable
`sentiment_batch_number` and the database. -/
structure PipelineState where
  batchNumber : ℕ
  db : DB
deriving DecidableEq, Repr

/-- Embedding of `extract_task_py`'s effect on the batch-number variable:
on `None` (end of file) the variable resets to 1 and downstream tasks see EOF;
otherwise the variable is advanced to `batchNumber + 1` immediately and the
extracted rows are handed downstream. -/
def extract_task (numRows batch_size batchNumber : ℕ) : ℕ × Option (List ℕ) :=
  match extract_batch numRows batchNumber batch_size with
  | none => (1, none)
  | some rows => (batchNumber + 1, some rows)

/-- One DAG run of `supplier_sentiment_pipeline`: extract (advancing or
resetting the batch-number variable), transform, predict, load, alert.
`txFails = true` models a database transaction that fails inside
`load_batch_to_db`: the transaction is rolled back (no database change) and
the raised error makes the downstream alert task not run. When transform or
predict return `None`, load is skipped and only the alert task touches the
database. -/
def runPipeline (txFails : Bool) (src : ℕ → SourceRow) (numRows batch_size : ℕ)
    (classify : String → ℕ) (threshold : ℕ) (deliver : ℕ → Bool)
    (st : PipelineState) : PipelineState :=
  match extract_batch numRows st.batchNumber batch_size with
  | none => { st with batchNumber := 1 }
  | some idxs =>
    let st1 : PipelineState := ⟨st.batchNumber + 1, st.db⟩
    match preprocess_text_batch (idxs.map src) with
    | none => { st1 with db := check_and_send_alerts st1.db deliver }
    | some cleaned =>
      match predict_sentiment_batch classify cleaned with
      | none => { st1 with db := check_and_send_alerts st1.db deliver }
      | some predicted =>
        if txFails then st1
        else { st1 with
          db := check_and_send_alerts (load_batch_to_db predicted st1.db threshold) deliver }

/-! Helper lemmas shared by several results. -/

/-- A member of a notification upsert is either the freshly written row for
the upsert key, or an untouched row of the original table for another key. -/
lemma mem_upsertNotificationRow {t : List NotificationRow} {id msg : String} {n thr : ℕ}
    {r : NotificationRow} (hr : r ∈ upsertNotificationRow t id msg n thr) :
    (r.product_id = id → r = ⟨id, msg, n, thr, SendStatus.no⟩)
    ∧ (r.product_id ≠ id → r ∈ t) := by
  unfold upsertNotificationRow at hr
  cases hfind : t.find? (fun x => decide (x.product_id = id)) with
  | some x =>
    rw [hfind] at hr
    obtain ⟨y, hy, hxy⟩ := List.mem_map.mp hr
    by_cases h : y.product_id = id
    · rw [if_pos h] at hxy
      subst hxy
      exact ⟨fun _ => rfl, fun hne => absurd rfl hne⟩
    · rw [if_neg h] at hxy
      subst hxy
      exact ⟨fun hid => absurd hid h, fun _ => hy⟩
  | none =>
    rw [hfind] at hr
    rcases List.mem_append.mp hr with h | h
    · refine ⟨fun hid => ?_, fun _ => h⟩
      have := List.find?_eq_none.mp hfind r h
      simp [hid] at this
    · simp only [List.mem_singleton] at h
      subst h
      exact ⟨fun _ => rfl, fun hne => absurd rfl hne⟩

/-- `load_batch_to_db` never touches the district tables. -/
lemma load_batch_to_db_district_eq (df : List ReviewRecord) (db : DB) (thr : ℕ) :
    (load_batch_to_db df db thr).notifications = db.notifications
    ∧ (load_batch_to_db df db thr).district_stats = db.district_stats := by
  unfold load_batch_to_db
  split
  · exact ⟨rfl, rfl⟩
  · split
    · exact ⟨rfl, rfl⟩
    · exact ⟨rfl, rfl⟩

/-- A successful extraction returns a non-empty row list. -/
lemma extract_batch_ne_nil {numRows b s : ℕ} {l : List ℕ}
    (h : extract_batch numRows b s = some l) : l ≠ [] := by
  unfold extract_batch at h
  split at h
  · exact absurd h (by simp)
  · split at h
    · exact absurd h (by simp)
    · rename_i hrows
      injection h with h
      exact h ▸ hrows

/-- Reducing `extract_batch` on a non-terminal read. -/
lemma extract_batch_eq_some {numRows b s : ℕ} (hb : ¬ b < 1)
    (hne : extractRows numRows b s ≠ []) :
    extract_batch numRows b s = some (extractRows numRows b s) := by
  rw [extract_batch, if_neg hb, if_neg hne]

/-- Reducing `extract_batch` on an empty read. -/
lemma extract_batch_eq_none {numRows b s : ℕ}
    (he : extractRows numRows b s = []) :
    extract_batch numRows b s = none := by
  simp [extract_batch, he]

/-- C1: the spec's invariant `num_positive + num_neutral + num_negative =
total_reviews` is the intended behaviour, but the code breaks it: the
predictor labels rows with the English strings of `arabic_id2label` while the
loader's aggregation counts only the Arabic literals, so every committed
pipeline batch adds to `total_reviews` and to none of the three counters.
Concretely, loading a one-record batch labelled by the predictor puts
`(total_reviews, num_pos + num_nat + num_neg) = (1, 0)` in the product
table. -/
theorem C1_sentiment_counters_vs_total :
    (∀ n : ℕ, arabic_id2label n ∈ (["Positive", "Neutral", "Negative", "unknown"] : List String))
    ∧ ((load_batch_to_db [⟨"A1", "T1", some 10, some 4, some "جيد", arabic_id2label 2⟩]
          emptyDB 10).product.map
        fun p => (p.total_reviews, p.num_pos_reviews + p.num_nat_reviews + p.num_neg_reviews))
      = [(1, 0)] := by
  constructor
  · intro n
    rcases n with _ | _ | _ | n <;> simp [arabic_id2label]
  · decide

/-- C4 counterexample: with 7 source rows and `batch_size = 5`, run 2 does
not report end-of-source: it returns rows 6 and 7 as an ordinary batch and
advances the stored batch number from 2 to 3 instead of leaving it. -/
theorem C4_counterexample :
    extract_task 7 5 2 = (3, some [6, 7]) ∧ (extract_task 7 5 2).1 ≠ 2 := by
  decide

/-- C4 amended: for a positive batch size, extraction reports end-of-source
(returning no records and resetting the stored batch number to 1) exactly
when zero records remain; when at least one record remains the read returns
the remaining records - even if fewer than `batch_size` - as an ordinary
batch and the stored batch number advances by one. -/
theorem C4_eof_only_when_no_records_remain (n s b : ℕ) (hb : 1 ≤ b) (hs : 0 < s) :
    (extract_task n s b = (1, none) ↔ n ≤ (b - 1) * s)
    ∧ ((b - 1) * s < n →
        extract_task n s b = (b + 1, some (extractRows n b s))) := by
  have hb' : ¬ b < 1 := by omega
  have hkey : extractRows n b s = [] ↔ n ≤ (b - 1) * s := by
    rw [extractRows, List.range'_eq_nil]
    omega
  constructor
  · constructor
    · intro h
      by_contra hn
      push_neg at hn
      have hne : extractRows n b s ≠ [] := by
        rw [Ne, hkey]; omega
      rw [extract_task, extract_batch_eq_some hb' hne] at h
      exact absurd (congrArg Prod.snd h) (by simp)
    · intro h
      rw [extract_task, extract_batch_eq_none (hkey.mpr h)]
  · intro h
    have hne : extractRows n b s ≠ [] := by
      rw [Ne, hkey]; omega
    rw [extract_task, extract_batch_eq_some hb' hne]

/-- C4 witness: the amended statement evaluated on the 7-row, size-5 source
at run 2. -/
theorem C4_eof_witness :
    (extract_task 7 5 2 = (1, none) ↔ 7 ≤ (2 - 1) * 5)
    ∧ ((2 - 1) * 5 < 7 →
        extract_task 7 5 2 = (2 + 1, some (extractRows 7 2 5))) :=
  C4_eof_only_when_no_records_remain 7 5 2 (by decide) (by decide)

/-- C7 counterexample: a batch holding one row for entity `E` whose `Price`
is non-numeric is dropped entirely by the numeric cleaning: the merge adds
nothing - the sentiment counters of `E` are not merged either, contradicting
the claim that they still are. -/
theorem C7_counterexample :
    load_batch_to_db [⟨"E", "T", none, some 4, some "r", "سلبي"⟩]
        ⟨[⟨"E", "T", 7, 3, 1, 1, 1, 3⟩], [], [], [], []⟩ 10
      = ⟨[⟨"E", "T", 7, 3, 1, 1, 1, 3⟩], [], [], [], []⟩
    ∧ ([⟨"E", "T", none, some 4, some "r", "سلبي"⟩] : List ReviewRecord) ≠ [] := by
  constructor
  · decide
  · decide

/-- Mapping the merge-or-keep step of the product upsert over a table leaves
the rows of any other key untouched. -/
lemma map_mergeProduct_filter_ne {id name : String} {B : BatchSummary} {e : String}
    (h : id ≠ e) :
    ∀ t : List ProductRow,
      ((t.map fun r => if r.product_id = id then mergeProduct r name B else r).filter
          fun p => p.product_id = e)
        = t.filter fun p => p.product_id = e := by
  intro t
  induction t with
  | nil => rfl
  | cons r t ih =>
    by_cases hr : r.product_id = id
    · have h1 : ¬ (mergeProduct r name B).product_id = e := by
        simp only [mergeProduct]
        rw [hr]
        exact h
      have h2 : ¬ r.product_id = e := by
        rw [hr]
        exact h
      simp only [List.map_cons, if_pos hr, List.filter_cons]
      simp [h1, h2, ih]
    · simp only [List.map_cons, if_neg hr, List.filter_cons]
      simp [ih]

/-- A product upsert for one key leaves the rows of any other key untouched. -/
lemma upsertProduct_filter_ne {t : List ProductRow} {id name : String}
    {B : BatchSummary} {e : String} (h : id ≠ e) :
    ((upsertProduct t id name B).filter fun p => p.product_id = e)
      = t.filter fun p => p.product_id = e := by
  unfold upsertProduct
  cases hfind : t.find? (fun r => r.product_id = id) with
  | some x => exact map_mergeProduct_filter_ne h t
  | none =>
    rw [List.filter_append]
    have hins : ([insertProduct id name B].filter fun p => p.product_id = e) = [] := by
      simp [insertProduct, h]
    rw [hins, List.append_nil]

/-- Folding product upserts whose keys all differ from an entity leaves that
entity's product rows untouched. -/
lemma foldl_upsertProduct_filter_ne {e : String}
    (G : String × String → BatchSummary) :
    ∀ (keys : List (String × String)) (t : List ProductRow),
      (∀ k ∈ keys, k.1 ≠ e) →
      ((keys.foldl (fun t k => upsertProduct t k.1 k.2 (G k)) t).filter
          fun p => p.product_id = e)
        = t.filter fun p => p.product_id = e := by
  intro keys
  induction keys with
  | nil => intro t _; rfl
  | cons k ks ih =>
    intro t h
    rw [List.foldl_cons, ih _ (fun x hx => h x (List.mem_cons_of_mem _ hx)),
      upsertProduct_filter_ne (h k (List.mem_cons_self _ _))]

/-- Mapping the overwrite-or-keep step of the notification upsert over a
table leaves the rows of any other key untouched. -/
lemma map_notif_filter_ne {id msg : String} {n thr : ℕ} {e : String} (h : id ≠ e) :
    ∀ t : List NotificationRow,
      ((t.map fun r =>
          if r.product_id = id then (⟨id, msg, n, thr, SendStatus.no⟩ : NotificationRow)
          else r).filter fun q => q.product_id = e)
        = t.filter fun q => q.product_id = e := by
  intro t
  induction t with
  | nil => rfl
  | cons r t ih =>
    by_cases hr : r.product_id = id
    · have h2 : ¬ r.product_id = e := by
        rw [hr]
        exact h
      simp only [List.map_cons, if_pos hr, List.filter_cons]
      simp [h, h2, ih]
    · simp only [List.map_cons, if_neg hr, List.filter_cons]
      simp [ih]

/-- A notification upsert for one key leaves the rows of any other key
untouched. -/
lemma upsertNotificationRow_filter_ne {t : List NotificationRow} {id msg : String}
    {n thr : ℕ} {e : String} (h : id ≠ e) :
    ((upsertNotificationRow t id msg n thr).filter fun q => q.product_id = e)
      = t.filter fun q => q.product_id = e := by
  unfold upsertNotificationRow
  cases hfind : t.find? (fun r => r.product_id = id) with
  | some x => exact map_notif_filter_ne h t
  | none =>
    rw [List.filter_append]
    have hins : (([⟨id, msg, n, thr, SendStatus.no⟩] : List NotificationRow).filter
        fun q => q.product_id = e) = [] := by
      simp [h]
    rw [hins, List.append_nil]

/-- Folding notification upserts for products whose keys all differ from an
entity leaves that entity's notification rows untouched. -/
lemma foldl_upsertNotificationRow_filter_ne {e : String} (thr : ℕ) :
    ∀ (ps : List ProductRow) (t : List NotificationRow),
      (∀ p ∈ ps, p.product_id ≠ e) →
      ((ps.foldl (fun t p => upsertNotificationRow t p.product_id
          (notifMessage p.product_name p.product_id p.num_neg_reviews)
          p.num_neg_reviews thr) t).filter fun q => q.product_id = e)
        = t.filter fun q => q.product_id = e := by
  intro ps
  induction ps with
  | nil => intro t _; rfl
  | cons p ps ih =>
    intro t h
    rw [List.foldl_cons, ih _ (fun x hx => h x (List.mem_cons_of_mem _ hx)),
      upsertNotificationRow_filter_ne (h p (List.mem_cons_self _ _))]

/-- The product table produced by the transaction body, spelled out. -/
lemma loadCleanedBatch_product (cleaned : List ReviewRecord) (db : DB) (thr : ℕ) :
    (loadCleanedBatch cleaned db thr).product
      = (groupKeys cleaned).foldl
          (fun t k => upsertProduct t k.1 k.2 (groupAgg (groupRows cleaned k)))
          db.product := rfl

/-- The notification table produced by the transaction body, spelled out. -/
lemma loadCleanedBatch_notification (cleaned : List ReviewRecord) (db : DB) (thr : ℕ) :
    (loadCleanedBatch cleaned db thr).notification
      = (((groupKeys cleaned).foldl
            (fun t k => upsertProduct t k.1 k.2 (groupAgg (groupRows cleaned k)))
            db.product).filter fun p =>
              p.product_id ∈ (cleaned.map fun r => r.asin).dedup
              ∧ 0 < p.num_neg_reviews).foldl
          (fun t p => upsertNotificationRow t p.product_id
            (notifMessage p.product_name p.product_id p.num_neg_reviews)
            p.num_neg_reviews thr) db.notification := rfl

/-- The transaction body touches neither the product rows nor the
notification rows of an entity with no row in the cleaned batch. -/
lemma loadCleanedBatch_filter_ne {cleaned : List ReviewRecord} {db : DB} {thr : ℕ}
    {e : String} (hcl : ∀ r ∈ cleaned, r.asin ≠ e) :
    ((loadCleanedBatch cleaned db thr).product.filter fun p => p.product_id = e)
        = db.product.filter (fun p => p.product_id = e)
    ∧ ((loadCleanedBatch cleaned db thr).notification.filter fun q => q.product_id = e)
        = db.notification.filter fun q => q.product_id = e := by
  have hkeys : ∀ k ∈ groupKeys cleaned, k.1 ≠ e := by
    intro k hk
    obtain ⟨r, hr, rfl⟩ := List.mem_map.mp (List.mem_dedup.mp hk)
    exact hcl r hr
  have hasins : ∀ a ∈ (cleaned.map fun r => r.asin).dedup, a ≠ e := by
    intro a ha
    obtain ⟨r, hr, rfl⟩ := List.mem_map.mp (List.mem_dedup.mp ha)
    exact hcl r hr
  constructor
  · rw [loadCleanedBatch_product]
    exact foldl_upsertProduct_filter_ne _ _ _ hkeys
  · rw [loadCleanedBatch_notification]
    apply foldl_upsertNotificationRow_filter_ne
    intro p hp
    have hpred := List.of_mem_filter hp
    simp only [decide_eq_true_eq] at hpred
    exact hasins _ hpred.1

/-- C7 amended: rows with a missing or non-numeric `Price` or `Stars` are
dropped before aggregation, sentiment labels included; an entity all of whose
rows in the batch are invalid in this way contributes nothing to the merge -
its product row (sentiment counters and means alike) and its notification row
are exactly as before, even when the batch holds valid rows for other
entities - and a batch in which every row is invalid performs no database
write at all. -/
theorem C7_invalid_entity_contributes_nothing (df : List ReviewRecord) (db : DB)
    (thr : ℕ) (e : String)
    (h : ∀ r ∈ df, r.asin = e → r.price = none ∨ r.stars = none) :
    ((load_batch_to_db df db thr).product.filter fun p => p.product_id = e)
        = db.product.filter (fun p => p.product_id = e)
    ∧ ((load_batch_to_db df db thr).notification.filter fun q => q.product_id = e)
        = db.notification.filter (fun q => q.product_id = e)
    ∧ ((∀ r ∈ df, r.price = none ∨ r.stars = none) → load_batch_to_db df db thr = db) := by
  have hcl : ∀ r ∈ cleanNumericRows df, r.asin ≠ e := by
    intro r hr hre
    have hmem := List.mem_of_mem_filter hr
    have hpred := List.of_mem_filter hr
    rcases h r hmem hre with h1 | h1 <;> simp [h1] at hpred
  refine ⟨?_, ?_, ?_⟩
  · unfold load_batch_to_db
    split
    · rfl
    · split
      · rfl
      · exact (loadCleanedBatch_filter_ne hcl).1
  · unfold load_batch_to_db
    split
    · rfl
    · split
      · rfl
      · exact (loadCleanedBatch_filter_ne hcl).2
  · intro hall
    unfold load_batch_to_db
    split
    · rfl
    · have hclean : cleanNumericRows df = [] := by
        rw [cleanNumericRows, List.filter_eq_nil_iff]
        intro r hr
        rcases hall r hr with h1 | h1 <;> simp [h1]
      simp [hclean]

/-- C7 witness: the amended statement evaluated on a mixed batch - one
invalid-price row for entity `E` next to a valid row for entity `B` - against
a database already holding product and notification rows for `E`. -/
theorem C7_invalid_entity_witness :
    ((load_batch_to_db
        [⟨"E", "T", none, some 4, some "r", "سلبي"⟩,
         ⟨"B", "U", some 3, some 5, some "s", "سلبي"⟩]
        ⟨[⟨"E", "T", 7, 3, 1, 1, 1, 3⟩], [], [⟨"E", "m", 1, 2, SendStatus.yes⟩], [], []⟩
        10).product.filter fun p => p.product_id = "E")
        = ([⟨"E", "T", 7, 3, 1, 1, 1, 3⟩] : List ProductRow).filter
            (fun p => p.product_id = "E")
    ∧ ((load_batch_to_db
        [⟨"E", "T", none, some 4, some "r", "سلبي"⟩,
         ⟨"B", "U", some 3, some 5, some "s", "سلبي"⟩]
        ⟨[⟨"E", "T", 7, 3, 1, 1, 1, 3⟩], [], [⟨"E", "m", 1, 2, SendStatus.yes⟩], [], []⟩
        10).notification.filter fun q => q.product_id = "E")
        = ([⟨"E", "m", 1, 2, SendStatus.yes⟩] : List NotificationRow).filter
            (fun q => q.product_id = "E")
    ∧ ((∀ r ∈ [⟨"E", "T", none, some 4, some "r", "سلبي"⟩,
          (⟨"B", "U", some 3, some 5, some "s", "سلبي"⟩ : ReviewRecord)],
          r.price = none ∨ r.stars = none) →
        load_batch_to_db
          [⟨"E", "T", none, some 4, some "r", "سلبي"⟩,
           ⟨"B", "U", some 3, some 5, some "s", "سلبي"⟩]
          ⟨[⟨"E", "T", 7, 3, 1, 1, 1, 3⟩], [], [⟨"E", "m", 1, 2, SendStatus.yes⟩], [], []⟩
          10
        = ⟨[⟨"E", "T", 7, 3, 1, 1, 1, 3⟩], [], [⟨"E", "m", 1, 2, SendStatus.yes⟩], [], []⟩) :=
  C7_invalid_entity_contributes_nothing
    [⟨"E", "T", none, some 4, some "r", "سلبي"⟩,
     ⟨"B", "U", some 3, some 5, some "s", "سلبي"⟩]
    ⟨[⟨"E", "T", 7, 3, 1, 1, 1, 3⟩], [], [⟨"E", "m", 1, 2, SendStatus.yes⟩], [], []⟩
    10 "E" (by decide)

/-- C5 counterexample: starting from a product with 2 stored negative reviews
whose notification row was already sent (`'yes'`) with
`num_negative = 2`, loading a batch that adds one positive and zero negative
reviews for that product re-upserts the row with the same `num_negative = 2` -
yet the upsert resets `send_status` to `'no'`, contradicting the claim that an
upsert carrying the unchanged count leaves a sent row sent. -/
theorem C5_counterexample :
    ((load_batch_to_db [⟨"A", "T", some 10, some 4, some "r", "إيجابي"⟩]
        ⟨[⟨"A", "T", 10, 4, 0, 0, 2, 2⟩], [], [⟨"A", "m", 2, 2, SendStatus.yes⟩], [], []⟩
        2).notification.map fun r => (r.num_negative, r.send_status))
      = [(2, SendStatus.no)]
    ∧ (([⟨"A", "m", 2, 2, SendStatus.yes⟩] : List NotificationRow).map fun r =>
        (r.num_negative, r.send_status)) = [(2, SendStatus.yes)] := by
  constructor
  · decide
  · decide

/-- C5 amended: the notification upsert of the load stage resets
`send_status` to pending unconditionally - for every entity of the batch with
merged `num_negative > 0`, including a sent row whose `num_negative` did not
change - while rows for other entities are left untouched. -/
theorem C5_upsert_resets_to_pending (t : List NotificationRow) (id msg : String)
    (n thr : ℕ) (r : NotificationRow) (hr : r ∈ upsertNotificationRow t id msg n thr) :
    (r.product_id = id →
      r.send_status = SendStatus.no ∧ r.num_negative = n ∧ r.threshold = thr)
    ∧ (r.product_id ≠ id → r ∈ t) := by
  obtain ⟨h1, h2⟩ := mem_upsertNotificationRow hr
  refine ⟨fun hid => ?_, h2⟩
  rw [h1 hid]
  exact ⟨rfl, rfl, rfl⟩

/-- C5 witness: the amended statement evaluated on a sent row being
re-upserted with the same count. -/
theorem C5_upsert_resets_witness :
    ((⟨"A", "m2", 2, 5, SendStatus.no⟩ : NotificationRow).product_id = "A" →
      (⟨"A", "m2", 2, 5, SendStatus.no⟩ : NotificationRow).send_status = SendStatus.no
      ∧ (⟨"A", "m2", 2, 5, SendStatus.no⟩ : NotificationRow).num_negative = 2
      ∧ (⟨"A", "m2", 2, 5, SendStatus.no⟩ : NotificationRow).threshold = 5)
    ∧ ((⟨"A", "m2", 2, 5, SendStatus.no⟩ : NotificationRow).product_id ≠ "A" →
      (⟨"A", "m2", 2, 5, SendStatus.no⟩ : NotificationRow)
        ∈ [⟨"A", "m", 2, 2, SendStatus.yes⟩]) :=
  C5_upsert_resets_to_pending [⟨"A", "m", 2, 2, SendStatus.yes⟩] "A" "m2" 2 5
    ⟨"A", "m2", 2, 5, SendStatus.no⟩ (by decide)

/-- C6 counterexample: loading a batch with one negative review for product
`A` stages a pending row in the product `notification` table, yet the
pending-alert select of the alert stage (which reads the district
`notifications` table) returns nothing - the staged notification is not in
the set the notifier considers. -/
theorem C6_counterexample :
    ((load_batch_to_db [⟨"A", "T", some 10, some 4, some "r", "سلبي"⟩]
        emptyDB 1).notification.map fun r => (r.product_id, r.send_status))
      = [("A", SendStatus.no)]
    ∧ findPendingAlerts
        (load_batch_to_db [⟨"A", "T", some 10, some 4, some "r", "سلبي"⟩] emptyDB 1)
      = [] := by
  constructor
  · decide
  · decide

/-- C6 amended: the load stage stages its pending notifications in the
product-keyed `notification` table, while the alert stage selects pending
rows only from the district-keyed `notifications` table joined with
`district_stats`; consequently the set of alerts the notifier considers is
entirely unaffected by anything the load stage commits. -/
theorem C6_load_staged_rows_never_selected (df : List ReviewRecord) (db : DB) (thr : ℕ) :
    findPendingAlerts (load_batch_to_db df db thr) = findPendingAlerts db := by
  obtain ⟨h1, h2⟩ := load_batch_to_db_district_eq df db thr
  rw [findPendingAlerts, findPendingAlerts, h1, h2]

/-- C8: a pending row qualifies for delivery exactly when its stored negative
count has reached the threshold stored in the same row, and the notification
upsert captures the configured threshold into the row at upsert time - so a
later change of the global threshold configuration cannot affect which
already-stored rows qualify before their next upsert. -/
theorem C8_per_row_threshold (t : List NotificationRow) (id msg : String) (n thr : ℕ)
    (db : DB) (a : PendingAlert) :
    (∀ r ∈ upsertNotificationRow t id msg n thr,
      r.product_id = id → r.threshold = thr ∧ r.num_negative = n)
    ∧ (a ∈ alertsToSend db ↔ a ∈ findPendingAlerts db ∧ a.threshold ≤ a.num_neg_reviews) := by
  constructor
  · intro r hr hid
    rw [(mem_upsertNotificationRow hr).1 hid]
    exact ⟨rfl, rfl⟩
  · rw [alertsToSend, List.mem_filter]
    simp

/-- C8 witness: the statement evaluated at a concrete upsert and a concrete
database holding one pending row below its stored threshold. -/
theorem C8_per_row_threshold_witness :
    (∀ r ∈ upsertNotificationRow [] "A" "m" 7 10, r.product_id = "A" →
      r.threshold = 10 ∧ r.num_negative = 7)
    ∧ (⟨1, "m", 7, 10, "d", "g"⟩ ∈ alertsToSend
          ⟨[], [], [], [⟨1, "d", "g"⟩], [⟨1, "m", 7, 10, SendStatus.no⟩]⟩
        ↔ ⟨1, "m", 7, 10, "d", "g"⟩ ∈ findPendingAlerts
            ⟨[], [], [], [⟨1, "d", "g"⟩], [⟨1, "m", 7, 10, SendStatus.no⟩]⟩
          ∧ (10 : ℕ) ≤ 7) :=
  C8_per_row_threshold [] "A" "m" 7 10
    ⟨[], [], [], [⟨1, "d", "g"⟩], [⟨1, "m", 7, 10, SendStatus.no⟩]⟩
    ⟨1, "m", 7, 10, "d", "g"⟩

/-- Every district id collected by the sending loop was confirmed by the
transport and belongs to a qualifying alert of the attempted list. -/
lemma sendLoop_mem (deliver : ℕ → Bool) :
    ∀ (l : List PendingAlert) (i : ℕ), i ∈ sendLoop deliver l →
      deliver i = true ∧ i ∈ l.map fun a => a.district_id := by
  intro l
  induction l with
  | nil =>
    intro i h
    simp [sendLoop] at h
  | cons a rest ih =>
    intro i h
    rw [sendLoop] at h
    by_cases hd : deliver a.district_id = true
    · rw [if_pos hd] at h
      rcases List.mem_cons.mp h with h | h
      · subst h
        exact ⟨hd, by simp⟩
      · obtain ⟨h1, h2⟩ := ih i h
        exact ⟨h1, by simp only [List.map_cons, List.mem_cons]; exact Or.inr h2⟩
    · rw [if_neg hd] at h
      simp at h

/-- C9: after an alert cycle, `send_status` is flipped to sent for exactly
the district ids of a confirmed set - each confirmed id was accepted by the
transport and belongs to a qualifying pending alert - while every other row,
in particular every row whose delivery failed or was never attempted, keeps
its previous status. -/
theorem C9_sent_exactly_confirmed (db : DB) (deliver : ℕ → Bool) :
    ∃ sent : List ℕ,
      (∀ i ∈ sent, deliver i = true ∧ i ∈ (alertsToSend db).map fun a => a.district_id)
      ∧ (check_and_send_alerts db deliver).notifications =
          db.notifications.map fun nn =>
            if nn.district_id ∈ sent then { nn with send_status := SendStatus.yes }
            else nn := by
  unfold check_and_send_alerts
  split
  · refine ⟨[], by simp, ?_⟩
    simp
  · split
    · refine ⟨[], by simp, ?_⟩
      simp
    · split
      · refine ⟨[], by simp, ?_⟩
        simp
      · exact ⟨sendLoop deliver (alertsToSend db),
          fun i hi => sendLoop_mem deliver (alertsToSend db) i hi, rfl⟩

/-- The numeric attribute of a cleaned row (its `Price` value). -/
def priceOf (r : ReviewRecord) : ℚ := r.price.getD 0

/-- Folding one entity's per-batch groups, in order, through the product
upsert of `load_batch_to_db`, starting from a table with no row for the
entity. -/
def loadEntityBatches (id name : String) (bs : List (List ReviewRecord)) :
    List ProductRow :=
  bs.foldl (fun t b => upsertProduct t id name (groupAgg b)) []

/-- Running-statistics invariant tying a product row to the list of records
merged so far: right key, counted length, and the stored mean is the true
mean. -/
def StatsInv (id : String) (p : ProductRow) (rows : List ReviewRecord) : Prop :=
  p.product_id = id ∧ rows ≠ [] ∧ p.total_reviews = rows.length ∧
    p.AVG_price = (rows.map priceOf).sum / (rows.length : ℚ)

/-- On a group in which every `Review` is non-null, the aggregated
`total_reviews` is the group size. -/
lemma groupAgg_total_reviews {b : List ReviewRecord} (h : ∀ r ∈ b, r.review.isSome) :
    (groupAgg b).total_reviews = b.length := by
  unfold groupAgg
  simp only
  rw [List.filter_eq_self.mpr h]

/-- The insert arm of the upsert establishes the invariant on the first
non-empty batch. -/
lemma statsInv_insert {id name : String} {b : List ReviewRecord} (hb : b ≠ [])
    (hrev : ∀ r ∈ b, r.review.isSome) :
    StatsInv id (insertProduct id name (groupAgg b)) b :=
  ⟨rfl, hb, groupAgg_total_reviews hrev, rfl⟩

/-- The merge arm of the upsert (the SQL parallel-mean formula) preserves the
invariant. -/
lemma statsInv_merge {id name : String} {p : ProductRow} {rows b : List ReviewRecord}
    (hp : StatsInv id p rows) (hb : b ≠ []) (hrev : ∀ r ∈ b, r.review.isSome) :
    StatsInv id (mergeProduct p name (groupAgg b)) (rows ++ b) := by
  obtain ⟨hid, hrows, htot, havg⟩ := hp
  have hL : ((rows.length : ℚ)) ≠ 0 :=
    Nat.cast_ne_zero.mpr fun h => hrows (List.length_eq_zero.mp h)
  have hM : ((b.length : ℚ)) ≠ 0 :=
    Nat.cast_ne_zero.mpr fun h => hb (List.length_eq_zero.mp h)
  have hBt : (groupAgg b).total_reviews = b.length := groupAgg_total_reviews hrev
  refine ⟨hid, by simp [hrows], ?_, ?_⟩
  · simp [mergeProduct, htot, hBt]
  · have hsum : (groupAgg b).avg_price * ((b.length : ℚ)) = (b.map priceOf).sum := by
      show ((b.map fun r => r.price.getD 0).sum) / (b.length : ℚ) * (b.length : ℚ) = _
      rw [div_mul_cancel₀ _ hM]
      rfl
    have hold : p.AVG_price * ((rows.length : ℚ)) = (rows.map priceOf).sum := by
      rw [havg, div_mul_cancel₀ _ hL]
    show (p.AVG_price * (p.total_reviews : ℚ) +
        (groupAgg b).avg_price * ((groupAgg b).total_reviews : ℚ)) /
        ((p.total_reviews : ℚ) + ((groupAgg b).total_reviews : ℚ)) = _
    rw [htot, hBt, hold, hsum, List.map_append, List.sum_append, List.length_append]
    push_cast
    rfl

/-- Folding further non-empty batches through the upsert keeps the table a
single row for the entity and keeps the invariant. -/
lemma upsert_fold_inv (id name : String) :
    ∀ (bs : List (List ReviewRecord)) (p : ProductRow) (rows : List ReviewRecord),
      StatsInv id p rows → (∀ b ∈ bs, b ≠ []) →
      (∀ b ∈ bs, ∀ r ∈ b, r.review.isSome) →
      ∃ q, bs.foldl (fun t b => upsertProduct t id name (groupAgg b)) [p] = [q]
        ∧ StatsInv id q (rows ++ bs.flatten) := by
  intro bs
  induction bs with
  | nil =>
    intro p rows hp _ _
    exact ⟨p, rfl, by simpa using hp⟩
  | cons b rest ih =>
    intro p rows hp hne hrev
    have hstep : upsertProduct [p] id name (groupAgg b)
        = [mergeProduct p name (groupAgg b)] := by
      simp [upsertProduct, List.find?, hp.1]
    rw [List.foldl_cons, hstep]
    obtain ⟨q, h1, h2⟩ := ih (mergeProduct p name (groupAgg b)) (rows ++ b)
      (statsInv_merge hp (hne b (List.mem_cons_self _ _)) (hrev b (List.mem_cons_self _ _)))
      (fun x hx => hne x (List.mem_cons_of_mem _ hx))
      (fun x hx => hrev x (List.mem_cons_of_mem _ hx))
    refine ⟨q, h1, ?_⟩
    rwa [List.flatten_cons, ← List.append_assoc]

/-- C3: merging a sequence of non-empty per-batch groups for one entity in
order through the product upsert yields one row whose `total_reviews` is the
total record count and whose stored mean is exactly the true mean of all the
numeric attributes across all batches - independent of where the batch
boundaries fall, since the right-hand side mentions only the concatenation.
(Every record carries a non-null `Review`, which is what makes the SQL
weighting by `total_reviews` agree with the group sizes.) -/
theorem C3_parallel_mean_exact (id name : String) (bs : List (List ReviewRecord))
    (h0 : bs ≠ []) (hne : ∀ b ∈ bs, b ≠ [])
    (hrev : ∀ b ∈ bs, ∀ r ∈ b, r.review.isSome) :
    ∃ p : ProductRow, loadEntityBatches id name bs = [p]
      ∧ p.total_reviews = bs.flatten.length
      ∧ p.AVG_price = (bs.flatten.map priceOf).sum / (bs.flatten.length : ℚ) := by
  obtain ⟨b, rest, rfl⟩ := List.exists_cons_of_ne_nil h0
  have hb := hne b (List.mem_cons_self _ _)
  have hbrev := hrev b (List.mem_cons_self _ _)
  have hinit : upsertProduct [] id name (groupAgg b)
      = [insertProduct id name (groupAgg b)] := rfl
  rw [loadEntityBatches, List.foldl_cons, hinit]
  obtain ⟨q, h1, h2⟩ := upsert_fold_inv id name rest (insertProduct id name (groupAgg b)) b
    (statsInv_insert hb hbrev)
    (fun x hx => hne x (List.mem_cons_of_mem _ hx))
    (fun x hx => hrev x (List.mem_cons_of_mem _ hx))
  refine ⟨q, h1, ?_, ?_⟩
  · rw [List.flatten_cons]
    exact h2.2.2.1
  · rw [List.flatten_cons]
    exact h2.2.2.2

/-- A valid record for the C3 witness, with the given price. -/
def c3Record (q : ℚ) : ReviewRecord := ⟨"A", "T", some q, some 1, some "r", "x"⟩

/-- C3 witness: two batches with prices 1, 2 and 6 merge to the exact overall
mean. -/
theorem C3_parallel_mean_witness :
    ∃ p : ProductRow,
      loadEntityBatches "A" "T" [[c3Record 1, c3Record 2], [c3Record 6]] = [p]
      ∧ p.total_reviews = ([[c3Record 1, c3Record 2], [c3Record 6]] :
          List (List ReviewRecord)).flatten.length
      ∧ p.AVG_price = (([[c3Record 1, c3Record 2], [c3Record 6]] :
          List (List ReviewRecord)).flatten.map priceOf).sum
          / ((([[c3Record 1, c3Record 2], [c3Record 6]] :
          List (List ReviewRecord)).flatten.length : ℚ)) :=
  C3_parallel_mean_exact "A" "T" [[c3Record 1, c3Record 2], [c3Record 6]]
    (by decide) (by decide) (by decide)

/-- A source whose rows all carry valid numerics and an Arabic review, used
for the C2 scenario. -/
def c2Src : ℕ → SourceRow := fun _ => ⟨"A", "T", some 5, some 4, some "جيد"⟩

/-- The cleaned batch the C2 source produces for rows 1 and 2. -/
def c2Cleaned : List (SourceRow × String) := [(c2Src 1, "جيد"), (c2Src 2, "جيد")]

/-- The predicted batch the C2 source produces under a classifier that always
answers label id 2. -/
def c2Predicted : List ReviewRecord :=
  [⟨"A", "T", some 5, some 4, some "جيد", arabic_id2label 2⟩,
   ⟨"A", "T", some 5, some 4, some "جيد", arabic_id2label 2⟩]

/-- C2 counterexample: a run whose database transaction fails does not leave
all persisted state as it was - the database is unchanged, but the stored
batch number was already advanced by the extract task from 1 to 2 before the
transaction ran. -/
theorem C2_counterexample :
    runPipeline true c2Src 3 2 (fun _ => 2) 10 (fun _ => true) ⟨1, emptyDB⟩
      = ⟨2, emptyDB⟩
    ∧ (⟨2, emptyDB⟩ : PipelineState) ≠ ⟨1, emptyDB⟩ := by
  constructor
  · decide
  · decide

/-- C2 amended: when the batch reaches the load stage and its database
transaction fails, every database step of the batch is rolled back together
(the database is exactly the pre-run state), but the stored batch number was
already advanced by one during extraction, before the transaction - so the
failed batch is skipped on the next run rather than retried. -/
theorem C2_rollback_but_cursor_advanced (src : ℕ → SourceRow)
    (numRows batch_size threshold : ℕ) (classify : String → ℕ) (deliver : ℕ → Bool)
    (st : PipelineState) (idxs : List ℕ) (cleaned : List (SourceRow × String))
    (predicted : List ReviewRecord)
    (hext : extract_batch numRows st.batchNumber batch_size = some idxs)
    (hpre : preprocess_text_batch (idxs.map src) = some cleaned)
    (hpred : predict_sentiment_batch classify cleaned = some predicted) :
    runPipeline true src numRows batch_size classify threshold deliver st
      = ⟨st.batchNumber + 1, st.db⟩ := by
  simp [runPipeline, hext, hpre, hpred]

/-- C2 witness: the amended statement evaluated on the concrete failing run
of the counterexample scenario. -/
theorem C2_rollback_witness :
    runPipeline true c2Src 3 2 (fun _ => 2) 10 (fun _ => true) ⟨1, emptyDB⟩
      = ⟨(⟨1, emptyDB⟩ : PipelineState).batchNumber + 1,
          (⟨1, emptyDB⟩ : PipelineState).db⟩ :=
  C2_rollback_but_cursor_advanced c2Src 3 2 10 (fun _ => 2) (fun _ => true)
    ⟨1, emptyDB⟩ [1, 2] c2Cleaned c2Predicted (by decide) (by decide) (by decide)

/-- Splitting an all-whitespace character list yields no words. -/
lemma splitWordsAux_all_ws :
    ∀ cs : List Char, (∀ c ∈ cs, c.isWhitespace = true) → splitWordsAux [] cs = [] := by
  intro cs
  induction cs with
  | nil => intro _; rfl
  | cons c cs ih =>
    intro h
    rw [splitWordsAux, if_pos (h c (List.mem_cons_self _ _)), if_pos rfl]
    exact ih fun x hx => h x (List.mem_cons_of_mem _ hx)

/-- A review containing no Arabic letter cleans to NaN. -/
lemma clean_arabic_text_none {s : String}
    (h : ∀ c ∈ s.data, isArabicChar c = false) :
    clean_arabic_text s = none := by
  have hkept : ∀ c ∈ s.data.filter (fun c => isArabicChar c || c.isWhitespace),
      c.isWhitespace = true := by
    intro c hc
    have h1 := List.of_mem_filter hc
    have h2 := List.mem_of_mem_filter hc
    simpa [h c h2] using h1
  simp only [clean_arabic_text]
  rw [splitWordsAux_all_ws _ hkept]
  simp

/-- C10: for a run whose extraction succeeds but in which every extracted
review contains no Arabic letter, the preprocessing result is empty and the
predict and load stages are skipped: the run writes nothing of the batch to
the database (the database evolves exactly as if only the alert task had
run), while the stored batch number has already advanced by one - the batch
is permanently skipped, not treated as end-of-source. -/
theorem C10_empty_after_cleaning (src : ℕ → SourceRow)
    (numRows batch_size threshold : ℕ) (classify : String → ℕ) (deliver : ℕ → Bool)
    (st : PipelineState) (idxs : List ℕ)
    (hext : extract_batch numRows st.batchNumber batch_size = some idxs)
    (hclean : ∀ i : ℕ, ∀ s : String, (src i).review = some s →
      ∀ c ∈ s.data, isArabicChar c = false) :
    runPipeline false src numRows batch_size classify threshold deliver st
      = ⟨st.batchNumber + 1, check_and_send_alerts st.db deliver⟩ := by
  have hne : idxs ≠ [] := extract_batch_ne_nil hext
  have hpre : preprocess_text_batch (idxs.map src) = none := by
    rw [preprocess_text_batch]
    rw [if_neg (by simpa using hne)]
    simp
    intro x hx s hs
    exact clean_arabic_text_none (hclean x s hs)
  simp [runPipeline, hext, hpre]

/-- A source whose reviews hold no Arabic letters, for the C10 witness. -/
def c10Src : ℕ → SourceRow := fun _ => ⟨"A", "T", some 5, some 4, some "good 99!"⟩

/-- C10 witness: the statement evaluated on a concrete two-row batch whose
reviews all clean to empty. -/
theorem C10_empty_after_cleaning_witness :
    runPipeline false c10Src 3 2 (fun _ => 2) 10 (fun _ => true) ⟨1, emptyDB⟩
      = ⟨(⟨1, emptyDB⟩ : PipelineState).batchNumber + 1,
          check_and_send_alerts (⟨1, emptyDB⟩ : PipelineState).db (fun _ => true)⟩ :=
  C10_empty_after_cleaning c10Src 3 2 10 (fun _ => 2) (fun _ => true) ⟨1, emptyDB⟩
    [1, 2] (by decide)
    (by
      intro i s hs
      injection hs with h
      subst h
      decide)

/-- C6 witness: the amended statement evaluated on the one-negative-review
batch against the empty database. -/
theorem C6_load_staged_witness :
    findPendingAlerts
        (load_batch_to_db [⟨"A", "T", some 10, some 4, some "r", "سلبي"⟩] emptyDB 1)
      = findPendingAlerts emptyDB :=
  C6_load_staged_rows_never_selected [⟨"A", "T", some 10, some 4, some "r", "سلبي"⟩]
    emptyDB 1

/-- A database with one qualifying pending district alert, for the C9
witness. -/
def c9DB : DB := ⟨[], [], [], [⟨1, "d", "g"⟩], [⟨1, "m", 7, 5, SendStatus.no⟩]⟩

/-- C9 witness: the statement evaluated on a database holding one qualifying
pending alert under an always-confirming transport. -/
theorem C9_sent_exactly_witness :
    ∃ sent : List ℕ,
      (∀ i ∈ sent, (fun _ : ℕ => true) i = true
        ∧ i ∈ (alertsToSend c9DB).map fun a => a.district_id)
      ∧ (check_and_send_alerts c9DB (fun _ => true)).notifications =
          c9DB.notifications.map fun nn =>
            if nn.district_id ∈ sent then { nn with send_status := SendStatus.yes }
            else nn :=
  C9_sent_exactly_confirmed c9DB (fun _ => true)
